import Mathlib

/-!
# Verification of the forever-video FLV codec and FIFO mixer

Shallow embedding of `src/crates/flvmux/src/lib.rs` and
`src/servers/join_stream/src/mixer.rs` (plus the timestamp-conversion slice
of `src/servers/join_stream/src/main.rs`).

Conventions:
* Bytes are `Nat` values in `[0, 256)`; byte streams are `List Nat`.
* Rust `i32` values are modelled on `Int`.  Rust arithmetic overflow on
  `i32` is a panic (debug builds), so the unbounded model is faithful to
  every non-panicking execution; where the bit pattern matters (the FLV
  tag-header serialization of a timestamp), the two's-complement pattern
  is taken explicitly with `% 4294967296` (Euclidean `Int.emod`).
* `io::Result` / `io::ErrorKind` become `Except IoErrorKind`.
-/

namespace ForeverVideo

/-- `io::ErrorKind` values the embedded code can produce. -/
inductive IoErrorKind where
  | invalidData
  | unexpectedEof
deriving DecidableEq, Repr

/-! ## flvmux: parsed packet types (`AvcPacketType`, `AacAudioPacketType`) -/

/-- `flvmux::AvcPacketType`. -/
inductive AvcPacketType where
  | SequenceHeader
  | Nalu (composition_offset_millis : Int) (seekable : Bool)
  | SequenceEnd
deriving DecidableEq, Repr

/-- `flvmux::AacAudioPacketType`. -/
inductive AacAudioPacketType where
  | SequenceHeader
  | Raw
deriving DecidableEq, Repr

/-- `flvmux::MediaType` (tag-type byte: audio = 8, video = 9). -/
inductive MediaType where
  | Audio
  | Video
deriving DecidableEq, Repr

/-- The `media_type as u8` cast in `write_media_tag_header`. -/
def MediaType.code : MediaType → Nat
  | .Audio => 8
  | .Video => 9

/-! ## flvmux: byte-level primitives (byteorder BE writers/readers) -/

/-- `write_u24::<BigEndian>`: the low 24 bits of `n`, big-endian.
(byteorder panics when `n ≥ 2^24`; all call sites stay in range.) -/
def u24be (n : Nat) : List Nat :=
  [n / 65536 % 256, n / 256 % 256, n % 256]

/-- `write_u32::<BigEndian>`. -/
def u32be (n : Nat) : List Nat :=
  [n / 16777216 % 256, n / 65536 % 256, n / 256 % 256, n % 256]

/-- `write_i24::<BigEndian>`: the low 24 bits of the value, big-endian
(two's complement for negative values). -/
def i24be (n : Int) : List Nat :=
  u24be (n % 16777216).toNat

/-- `read_i24::<BigEndian>`: consume three bytes, sign-extending bit 23. -/
def signExtend24 (n : Nat) : Int :=
  if n < 8388608 then (n : Int) else (n : Int) - 16777216

/-- `inf.read_i24::<BigEndian>()` on a byte stream (value only; the parsers
below never read past it). -/
def read_i24_be : List Nat → Except IoErrorKind Int
  | b0 :: b1 :: b2 :: _ => .ok (signExtend24 (b0 * 65536 + b1 * 256 + b2))
  | _ => .error .unexpectedEof

/-! ## flvmux: header parsers -/

/-- `flvmux::read_audio_headers` (the parser `mixer.rs` applies to each
inbound audio payload). -/
def read_audio_headers : List Nat → Except IoErrorKind AacAudioPacketType
  | [] => .error .unexpectedEof
  | audiodata :: rest =>
    if audiodata ≠ 0xAF then
      .error .invalidData
    else
      match rest with
      | [] => .error .unexpectedEof
      | b :: _ =>
        if b = 0 then .ok .SequenceHeader
        else if b = 1 then .ok .Raw
        else .error .invalidData

/-- Second half of `flvmux::read_video_headers`, after the VIDEODATA byte
fixed `seekable`. -/
def read_video_headers_rest (seekable : Bool) :
    List Nat → Except IoErrorKind AvcPacketType
  | [] => .error .unexpectedEof
  | b :: rest =>
    if b = 0 then .ok .SequenceHeader
    else if b = 2 then .ok .SequenceEnd
    else if b = 1 then
      match read_i24_be rest with
      | .ok composition_offset_millis =>
          .ok (.Nalu composition_offset_millis seekable)
      | .error e => .error e
    else .error .invalidData

/-- `flvmux::read_video_headers`. -/
def read_video_headers : List Nat → Except IoErrorKind AvcPacketType
  | [] => .error .unexpectedEof
  | b0 :: rest =>
    if b0 = 0x17 then read_video_headers_rest true rest
    else if b0 = 0x27 then read_video_headers_rest false rest
    else .error .invalidData

/-! ## flvmux: tag-header writer -/

/-- The unsigned 32-bit two's-complement bit pattern of an `i32`. -/
def bits32 (t : Int) : Nat := (t % 4294967296).toNat

/-- `flvmux::write_media_tag_header`.  On `i32`, `ts & 0xffffff` is the low
24 bits of the bit pattern and `ts >> 24 & 0xff` (arithmetic shift) is its
high byte, which is how the two timestamp fields are written here. -/
def write_media_tag_header (media_type : MediaType) (data_size : Nat)
    (decode_timestamp : Int) : List Nat :=
  media_type.code ::
    (u24be data_size ++
     u24be (bits32 decode_timestamp % 16777216) ++
     [bits32 decode_timestamp / 16777216 % 256] ++
     u24be 0)

/-- `flvmux::write_video_tag_header`. -/
def write_video_tag_header (data_size : Nat) (decode_timestamp : Int) :
    List Nat :=
  write_media_tag_header .Video data_size decode_timestamp

/-- `flvmux::write_audio_tag_header`. -/
def write_audio_tag_header (data_size : Nat) (decode_timestamp : Int) :
    List Nat :=
  write_media_tag_header .Audio data_size decode_timestamp

/-! ## flvmux: whole-tag video writer -/

/-- `flvmux::write_video_tag`. -/
def write_video_tag (decode_ts_millis : Int) (packet_type : AvcPacketType)
    (data : List Nat) : List Nat :=
  let pcs : Nat × Int × Bool :=
    match packet_type with
    | .SequenceHeader => (0, 0, true)
    | .SequenceEnd => (2, 0, true)
    | .Nalu composition_offset_millis seekable =>
        (1, composition_offset_millis, seekable)
  let data_size := data.length + 1 + 4
  let frametype : Nat := if pcs.2.2 then 16 else 32
  write_media_tag_header .Video data_size decode_ts_millis ++
    [Nat.lor frametype 7] ++
    (pcs.1 :: i24be pcs.2.1) ++
    data ++
    u32be (data_size + 11)

/-! ## mixer.rs: the FIFO mixer

`HashMap<MixerSource, SourceTs>` is modelled as a total function
`Nat → SourceTs`: the Rust code's only map operation is
"look up, inserting `{audio_ts: 0, video_ts: 0}` when absent", so the
zero-initialised total function is observationally identical. -/

/-- `mixer::MIN_AUDIO_INTERVAL`. -/
def MIN_AUDIO_INTERVAL : Int := 2000

/-- `mixer::SourceTs`. -/
structure SourceTs where
  audio_ts : Int
  video_ts : Int
deriving DecidableEq, Repr

/-- `mixer::LastSwitch`. -/
structure LastSwitch where
  current : Nat
  started : Int
deriving DecidableEq, Repr

/-- `LastSwitchInfo::ready_for_change` on `Option<LastSwitch>`. -/
def ready_for_change (self : Option LastSwitch) (source : Nat) (now : Int) :
    Bool :=
  match self with
  | none => true
  | some switch =>
      switch.current ≠ source ∧ MIN_AUDIO_INTERVAL < now - switch.started

/-- `LastSwitchInfo::same_source` on `Option<LastSwitch>`. -/
def same_source (self : Option LastSwitch) (source : Nat) : Bool :=
  match self with
  | some switch => switch.current = source
  | none => false

/-- `mixer::FifoMixer`. -/
structure FifoMixer where
  source_timestamps : Nat → SourceTs
  audio_timestamp : Int
  video_timestamp : Int
  last_video_switch : Option LastSwitch
  last_audio_switch : Option LastSwitch

/-- `FifoMixer::default`. -/
def FifoMixer.default : FifoMixer where
  source_timestamps := fun _ => ⟨0, 0⟩
  audio_timestamp := 0
  video_timestamp := 0
  last_video_switch := none
  last_audio_switch := none

/-- The `match` in `FifoMixer::source_audio`: `none` is the `_ => return
Ok(())` drop arm, `some sw` admits the packet leaving `last_audio_switch =
sw`.  `now` is `self.audio_timestamp` before the `+= dt`. -/
def audioDecision (last : Option LastSwitch) (source : Nat) (now : Int) :
    AacAudioPacketType → Option (Option LastSwitch)
  | .SequenceHeader =>
      if last = none then some (some ⟨source, now⟩) else none
  | .Raw =>
      if ready_for_change last source now then some (some ⟨source, now⟩)
      else if same_source last source then some last
      else none

/-- The `match` in `FifoMixer::source_video`, same conventions as
`audioDecision`. -/
def videoDecision (last : Option LastSwitch) (source : Nat) (now : Int) :
    AvcPacketType → Option (Option LastSwitch)
  | .SequenceHeader =>
      if last = none then some (some ⟨source, now⟩) else none
  | .Nalu _ seekable =>
      if seekable then some (some ⟨source, now⟩)
      else if same_source last source then some last
      else none
  | .SequenceEnd => none

/-- `FifoMixer::source_audio`.  Returns the post-state (mutations made up to
an early return are kept), the bytes written to `out`, and the `Result`. -/
def source_audio (m : FifoMixer) (source : Nat) (data : List Nat)
    (timestamp : Int) : FifoMixer × List Nat × Except IoErrorKind Unit :=
  let ts0 := m.source_timestamps source
  let dt := timestamp - ts0.audio_ts
  let m1 := { m with
    source_timestamps := fun s =>
      if s = source then { ts0 with audio_ts := timestamp }
      else m.source_timestamps s }
  match read_audio_headers data with
  | .error e => (m1, [], .error e)
  | .ok header =>
    match audioDecision m1.last_audio_switch source m1.audio_timestamp header with
    | none => (m1, [], .ok ())
    | some sw =>
      let new_ts := m1.audio_timestamp + dt
      ({ m1 with audio_timestamp := new_ts, last_audio_switch := sw },
       write_audio_tag_header data.length new_ts ++ data ++
         u32be (data.length + 11),
       .ok ())

/-- `FifoMixer::source_video`, same conventions as `source_audio`. -/
def source_video (m : FifoMixer) (source : Nat) (data : List Nat)
    (timestamp : Int) : FifoMixer × List Nat × Except IoErrorKind Unit :=
  let ts0 := m.source_timestamps source
  let dt := timestamp - ts0.video_ts
  let m1 := { m with
    source_timestamps := fun s =>
      if s = source then { ts0 with video_ts := timestamp }
      else m.source_timestamps s }
  match read_video_headers data with
  | .error e => (m1, [], .error e)
  | .ok header =>
    match videoDecision m1.last_video_switch source m1.video_timestamp header with
    | none => (m1, [], .ok ())
    | some sw =>
      let new_ts := m1.video_timestamp + dt
      ({ m1 with video_timestamp := new_ts, last_video_switch := sw },
       write_video_tag_header data.length new_ts ++ data ++
         u32be (data.length + 11),
       .ok ())

/-! ## Traces of mixer calls -/

/-- One call into the `Mixer` trait. -/
inductive MediaCall where
  | audio (source : Nat) (data : List Nat) (timestamp : Int)
  | video (source : Nat) (data : List Nat) (timestamp : Int)
deriving Repr

/-- Process one call, keeping the post-state and the bytes written. -/
def stepCall (m : FifoMixer) : MediaCall → FifoMixer × List Nat
  | .audio s d t => let r := source_audio m s d t; (r.1, r.2.1)
  | .video s d t => let r := source_video m s d t; (r.1, r.2.1)

/-- Run a list of calls. -/
def runCalls (m : FifoMixer) : List MediaCall → FifoMixer
  | [] => m
  | c :: cs => runCalls (stepCall m c).1 cs

/-- The bytes each call wrote, in order (`[]` for a dropped packet). -/
def callOutputs (m : FifoMixer) : List MediaCall → List (List Nat)
  | [] => []
  | c :: cs => (stepCall m c).2 :: callOutputs (stepCall m c).1 cs

/-! ## Spec §3 tag-header layout, as a parser

This definition follows the SPEC's words (claim C7 compares the writer
against the spec's layout): `u8 tag_type`, `u24 BE data_size`,
`u24 BE timestamp_lo`, `u8 timestamp_hi` reassembled as a signed 32-bit
value, `u24 BE stream_id = 0`. -/

/-- Re-parse an 11-byte tag header per spec §3; `none` when the layout is
violated (wrong length or nonzero stream id). -/
def parse_tag_header_spec (bs : List Nat) : Option (Nat × Nat × Int) :=
  match bs with
  | [tag_type, d0, d1, d2, t0, t1, t2, thi, s0, s1, s2] =>
      if s0 = 0 ∧ s1 = 0 ∧ s2 = 0 then
        let data_size := d0 * 65536 + d1 * 256 + d2
        let pattern := thi * 16777216 + (t0 * 65536 + t1 * 256 + t2)
        let ts : Int :=
          if pattern < 2147483648 then (pattern : Int)
          else (pattern : Int) - 4294967296
        some (tag_type, data_size, ts)
      else none
  | _ => none

/-! ## main.rs: timestamp conversion in `handle_client_stream`

The loop body's pure slice: `i32::try_from(u_timestamp.value)?` runs before
any message dispatch, and `AudioData`/`VideoData` payloads are forwarded to
the mixer channel tagged with the converted timestamp and the source. -/

/-- `i32::MAX`. -/
def I32_MAX : Nat := 2147483647

/-- `i32::try_from` on a `u32` value. -/
def i32_try_from_u32 (u : Nat) : Except Unit Int :=
  if u ≤ I32_MAX then .ok (u : Int) else .error ()

/-- The inbound RTMP messages `handle_client_stream` can see;
`other` stands for the non-media messages (commands, data, control). -/
inductive RtmpMessage where
  | audioData (data : List Nat)
  | videoData (data : List Nat)
  | other
deriving Repr

/-- `main::MediaData`, the items sent to the mixer channel. -/
inductive MediaData where
  | Video (data : List Nat) (timestamp : Int) (source : Nat)
  | Audio (data : List Nat) (timestamp : Int) (source : Nat)
deriving DecidableEq, Repr

/-- One iteration of the `handle_client_stream` message loop: convert the
timestamp (failing the connection on overflow), then forward media to the
mixer channel.  `some md` is a `sink.send(md)`. -/
def handle_client_message (source : Nat) (u_timestamp : Nat)
    (msg : RtmpMessage) : Except Unit (Option MediaData) :=
  match i32_try_from_u32 u_timestamp with
  | .error e => .error e
  | .ok timestamp =>
    match msg with
    | .audioData data => .ok (some (.Audio data timestamp source))
    | .videoData data => .ok (some (.Video data timestamp source))
    | .other => .ok none

/-! ## Arithmetic helper lemmas for the byte-level round trips -/

theorem u24be_reconstruct (n : Nat) (h : n < 16777216) :
    n / 65536 % 256 * 65536 + n / 256 % 256 * 256 + n % 256 = n := by
  omega

theorem bits32_int_cast (t : Int) : (bits32 t : Int) = t % 4294967296 := by
  exact Int.toNat_of_nonneg (Int.emod_nonneg t (by norm_num))

theorem bits32_lt (t : Int) : bits32 t < 4294967296 := by
  have h := Int.emod_lt_of_pos t (b := 4294967296) (by norm_num)
  have h0 := Int.emod_nonneg t (b := 4294967296) (by norm_num)
  unfold bits32
  omega

theorem signExtend24_emod (c : Int) (h1 : -8388608 ≤ c) (h2 : c < 8388608) :
    signExtend24 ((c % 16777216).toNat) = c := by
  have h0 := Int.emod_nonneg c (b := 16777216) (by norm_num)
  have hlt := Int.emod_lt_of_pos c (b := 16777216) (by norm_num)
  have hcast : (((c % 16777216).toNat : Int)) = c % 16777216 :=
    Int.toNat_of_nonneg h0
  unfold signExtend24
  split <;> omega

/-- Claim C5: writing a video tag with decode timestamp 0, packet type
SequenceHeader, and payload bytes AA BB emits exactly the 22 bytes
09 00 00 07 00 00 00 00 00 00 00 17 00 00 00 00 AA BB 00 00 00 12:
an 11-byte tag header with tag type 9 and data size 7, the VIDEODATA byte
0x17, a 4-byte AVCVIDEOPACKET header with packet type 0 and composition
offset 0, the payload, and a trailing big-endian u32 equal to
11 + data size. -/
theorem C5_write_video_tag_sequence_header_bytes :
    write_video_tag 0 .SequenceHeader [0xAA, 0xBB] =
      [0x09, 0x00, 0x00, 0x07, 0x00, 0x00, 0x00, 0x00, 0x00, 0x00, 0x00,
       0x17, 0x00, 0x00, 0x00, 0x00, 0xAA, 0xBB, 0x00, 0x00, 0x00, 0x12] := by
  decide

/-- Claim C6: for every composition offset in `[-2^23, 2^23 - 1]`, writing a
video Nalu tag through `write_video_tag` and parsing the tag's payload (the
bytes after the 11-byte tag header) with the video header parser returns a
Nalu with the same composition offset, sign preserved, and the same
seekable flag. -/
theorem C6_composition_offset_roundtrip (c : Int) (seekable : Bool)
    (ts : Int) (data : List Nat)
    (h1 : -8388608 ≤ c) (h2 : c < 8388608) :
    read_video_headers ((write_video_tag ts (.Nalu c seekable) data).drop 11) =
      .ok (.Nalu c seekable) := by
  have hrec := u24be_reconstruct ((c % 16777216).toNat)
    (by
      have h0 := Int.emod_nonneg c (b := 16777216) (by norm_num)
      have hlt := Int.emod_lt_of_pos c (b := 16777216) (by norm_num)
      omega)
  have hse := signExtend24_emod c h1 h2
  have hl1 : Nat.lor 16 7 = 23 := by decide
  have hl2 : Nat.lor 32 7 = 39 := by decide
  cases seekable <;>
    simp [write_video_tag, write_media_tag_header, write_video_tag_header,
      u24be, u32be, i24be, MediaType.code, read_video_headers,
      read_video_headers_rest, read_i24_be, List.drop, hrec, hse, hl1, hl2]

/-- Claim C6 witness at a concrete input. -/
theorem C6_composition_offset_roundtrip_witness :
    (-8388608 : Int) ≤ -1 ∧
    read_video_headers ((write_video_tag 0 (.Nalu (-1) true) [7]).drop 11) =
      .ok (.Nalu (-1) true) :=
  ⟨by norm_num,
   C6_composition_offset_roundtrip (-1) true 0 [7] (by norm_num) (by norm_num)⟩

/-- Claim C7: for both tag types, every data size representable in 24 bits
and every `i32` timestamp, writing the 11-byte tag header with
`write_media_tag_header` and re-parsing it per the spec §3 layout
reproduces tag type, data size and timestamp exactly. -/
theorem C7_tag_header_roundtrip (mt : MediaType) (ds : Nat) (ts : Int)
    (hds : ds < 16777216) (hlo : -2147483648 ≤ ts) (hhi : ts ≤ 2147483647) :
    parse_tag_header_spec (write_media_tag_header mt ds ts) =
      some (mt.code, ds, ts) := by
  have hb := bits32_lt ts
  have hc := bits32_int_cast ts
  cases mt <;>
    · simp only [write_media_tag_header, u24be, MediaType.code,
        List.cons_append, List.nil_append, parse_tag_header_spec]
      rw [if_pos (by norm_num)]
      simp only [Option.some.injEq, Prod.mk.injEq]
      refine ⟨by norm_num, by omega, ?_⟩
      split <;> omega

/-- Claim C7 witness at a concrete input. -/
theorem C7_tag_header_roundtrip_witness :
    (7 : Nat) < 16777216 ∧
    parse_tag_header_spec (write_media_tag_header .Video 7 (-1)) =
      some (9, 7, -1) :=
  ⟨by norm_num,
   C7_tag_header_roundtrip .Video 7 (-1) (by norm_num) (by norm_num) (by norm_num)⟩

/-- Claim C8 counterexample: the two-byte input 17 01 has a valid first
byte (0x17) and a valid second byte (1 = Nalu), yet the video header parser
does not succeed: reading the 24-bit composition offset hits end of input,
so it returns an UnexpectedEof error instead of an enumerated variant. -/
theorem C8_counterexample_nalu_prefix_eof :
    read_video_headers [0x17, 0x01] = .error .unexpectedEof := by
  rfl

/-- Claim C8 as amended: the audio parser returns InvalidData exactly when
the first byte is not 0xAF or the second byte is outside 0 and 1, and
otherwise succeeds with the enumerated variant; the video parser returns
InvalidData exactly when the first byte is outside 0x17 and 0x27 or the
second byte is outside 0, 1 and 2, succeeds with the enumerated variant on
valid prefixes, except that a Nalu (second byte 1) additionally needs three
more bytes for the composition offset. -/
theorem C8_parser_error_conditions :
    (∀ b0 rest, b0 ≠ 0xAF →
      read_audio_headers (b0 :: rest) = .error .invalidData) ∧
    (∀ b1 rest, b1 ≠ 0 → b1 ≠ 1 →
      read_audio_headers (0xAF :: b1 :: rest) = .error .invalidData) ∧
    (∀ rest, read_audio_headers (0xAF :: 0 :: rest) = .ok .SequenceHeader) ∧
    (∀ rest, read_audio_headers (0xAF :: 1 :: rest) = .ok .Raw) ∧
    (∀ b0 rest, b0 ≠ 0x17 → b0 ≠ 0x27 →
      read_video_headers (b0 :: rest) = .error .invalidData) ∧
    (∀ b0 b1 rest, (b0 = 0x17 ∨ b0 = 0x27) → b1 ≠ 0 → b1 ≠ 1 → b1 ≠ 2 →
      read_video_headers (b0 :: b1 :: rest) = .error .invalidData) ∧
    (∀ b0 rest, (b0 = 0x17 ∨ b0 = 0x27) →
      read_video_headers (b0 :: 0 :: rest) = .ok .SequenceHeader) ∧
    (∀ b0 rest, (b0 = 0x17 ∨ b0 = 0x27) →
      read_video_headers (b0 :: 2 :: rest) = .ok .SequenceEnd) ∧
    (∀ b0 c0 c1 c2 rest, (b0 = 0x17 ∨ b0 = 0x27) →
      read_video_headers (b0 :: 1 :: c0 :: c1 :: c2 :: rest) =
        .ok (.Nalu (signExtend24 (c0 * 65536 + c1 * 256 + c2)) (b0 = 0x17))) := by
  refine ⟨?_, ?_, ?_, ?_, ?_, ?_, ?_, ?_, ?_⟩
  · intro b0 rest h
    simp [read_audio_headers, h]
  · intro b1 rest h0 h1
    simp [read_audio_headers, h0, h1]
  · intro rest
    simp [read_audio_headers]
  · intro rest
    simp [read_audio_headers]
  · intro b0 rest h17 h27
    simp [read_video_headers, h17, h27]
  · rintro b0 b1 rest (rfl | rfl) h0 h1 h2 <;>
      simp [read_video_headers, read_video_headers_rest, h0, h1, h2]
  · rintro b0 rest (rfl | rfl) <;>
      simp [read_video_headers, read_video_headers_rest]
  · rintro b0 rest (rfl | rfl) <;>
      simp [read_video_headers, read_video_headers_rest]
  · rintro b0 c0 c1 c2 rest (rfl | rfl) <;>
      simp [read_video_headers, read_video_headers_rest, read_i24_be]

/-- Claim C8 witness at concrete inputs. -/
theorem C8_parser_error_conditions_witness :
    read_audio_headers [0xAE, 1] = .error .invalidData ∧
    read_audio_headers [0xAF, 7] = .error .invalidData ∧
    read_audio_headers [0xAF, 1] = .ok .Raw ∧
    read_video_headers [0x16, 1] = .error .invalidData ∧
    read_video_headers [0x27, 9] = .error .invalidData ∧
    read_video_headers [0x27, 1, 0, 0, 5] = .ok (.Nalu 5 false) :=
  ⟨C8_parser_error_conditions.1 0xAE [1] (by norm_num),
   C8_parser_error_conditions.2.1 7 [] (by norm_num) (by norm_num),
   C8_parser_error_conditions.2.2.2.1 [],
   C8_parser_error_conditions.2.2.2.2.1 0x16 [1] (by norm_num) (by norm_num),
   C8_parser_error_conditions.2.2.2.2.2.1 0x27 9 [] (Or.inr rfl)
     (by norm_num) (by norm_num) (by norm_num),
   by
     have h := C8_parser_error_conditions.2.2.2.2.2.2.2.2 0x27 0 0 5 []
       (Or.inr rfl)
     norm_num [signExtend24] at h
     exact h⟩

/-! ## Claim C1: the audio scenario -/

/-- The C1 scenario: sources 0 (A) and 1 (B) each send an AAC
SequenceHeader (setup), then A sends Raw at ts 0, B Raw at ts 5, A Raw at
ts 10.  An AAC Raw payload is `AF 01 ...`, a SequenceHeader `AF 00 ...`. -/
def c1Calls : List MediaCall :=
  [.audio 0 [0xAF, 0] 0, .audio 1 [0xAF, 0] 0,
   .audio 0 [0xAF, 1] 0, .audio 1 [0xAF, 1] 5, .audio 0 [0xAF, 1] 10]

/-- Claim C1 counterexample: in the claimed scenario the fourth call
(source B's Raw packet at ts 5, which parses as Raw) writes no tag at all:
the mixer drops it because B is not the floor holder and the floor was
taken less than MIN_AUDIO_INTERVAL ago, so not every Raw packet is
admitted and the output audio timestamp sequence is not 0, 5, 10. -/
theorem C1_counterexample_b_raw_dropped :
    read_audio_headers [0xAF, 1] = .ok .Raw ∧
    (callOutputs FifoMixer.default c1Calls).drop 3 =
      [[], write_audio_tag_header 2 10 ++ [0xAF, 1] ++ u32be 13] :=
  ⟨rfl, rfl⟩

/-- Claim C1 as amended: a Raw audio packet is admitted (a tag is written)
iff it comes from the current audio floor holder, or no holder exists yet,
or the holder is a different source and the output audio timestamp has
advanced by strictly more than MIN_AUDIO_INTERVAL since the holder took
the floor.  Consequently in the scenario, A's setup SequenceHeader and
A's Raws at ts 0 and 10 are emitted with output timestamps 0, 0 and 10;
B's SequenceHeader and B's Raw at ts 5 are dropped; the current audio
source ends as A. -/
theorem C1_amended_audio_admission :
    (∀ (m : FifoMixer) (s : Nat) (d : List Nat) (t : Int),
      read_audio_headers d = .ok .Raw →
      ((source_audio m s d t).2.1 ≠ [] ↔
        (m.last_audio_switch = none ∨
         ∃ sw, m.last_audio_switch = some sw ∧
           (sw.current = s ∨
            (sw.current ≠ s ∧
             MIN_AUDIO_INTERVAL < m.audio_timestamp - sw.started))))) ∧
    callOutputs FifoMixer.default c1Calls =
      [write_audio_tag_header 2 0 ++ [0xAF, 0] ++ u32be 13,
       [],
       write_audio_tag_header 2 0 ++ [0xAF, 1] ++ u32be 13,
       [],
       write_audio_tag_header 2 10 ++ [0xAF, 1] ++ u32be 13] ∧
    (runCalls FifoMixer.default c1Calls).last_audio_switch = some ⟨0, 0⟩ ∧
    (runCalls FifoMixer.default c1Calls).audio_timestamp = 10 := by
  refine ⟨?_, rfl, rfl, rfl⟩
  intro m s d t hr
  cases hl : m.last_audio_switch with
  | none =>
    have hready : ready_for_change m.last_audio_switch s m.audio_timestamp
        = true := by
      rw [hl]; rfl
    constructor
    · intro _
      exact Or.inl rfl
    · intro _
      simp [source_audio, hr, audioDecision, hready, write_audio_tag_header,
        write_media_tag_header]
  | some sw =>
    by_cases hcur : sw.current = s
    · have hready : ready_for_change m.last_audio_switch s m.audio_timestamp
          = false := by
        rw [hl]
        simp [ready_for_change, hcur]
      have hsame : same_source m.last_audio_switch s = true := by
        rw [hl]
        simp [same_source, hcur]
      constructor
      · intro _
        exact Or.inr ⟨sw, rfl, Or.inl hcur⟩
      · intro _
        simp [source_audio, hr, audioDecision, hready, hsame,
          write_audio_tag_header, write_media_tag_header]
    · by_cases hgate : MIN_AUDIO_INTERVAL < m.audio_timestamp - sw.started
      · have hready : ready_for_change m.last_audio_switch s m.audio_timestamp
            = true := by
          rw [hl]
          simp only [ready_for_change, decide_eq_true_eq]
          exact ⟨hcur, hgate⟩
        constructor
        · intro _
          exact Or.inr ⟨sw, rfl, Or.inr ⟨hcur, hgate⟩⟩
        · intro _
          simp [source_audio, hr, audioDecision, hready,
            write_audio_tag_header, write_media_tag_header]
      · have hready : ready_for_change m.last_audio_switch s m.audio_timestamp
            = false := by
          rw [hl]
          simp only [ready_for_change, decide_eq_false_iff_not, not_and,
            not_lt]
          intro _
          exact le_of_not_lt hgate
        have hsame : same_source m.last_audio_switch s = false := by
          rw [hl]
          simp [same_source, hcur]
        constructor
        · intro hne
          exfalso
          apply hne
          simp [source_audio, hr, audioDecision, hready, hsame]
        · rintro (h | ⟨sw', hsw', hor⟩)
          · exact absurd h (by simp)
          · exfalso
            cases Option.some.inj hsw'
            rcases hor with h | ⟨_, h2⟩
            · exact absurd h hcur
            · exact absurd h2 hgate

/-- Claim C1 witness at a concrete input: with no floor holder yet, a Raw
packet from source 0 is admitted. -/
theorem C1_amended_audio_admission_witness :
    read_audio_headers [0xAF, 1] = .ok .Raw ∧
    FifoMixer.default.last_audio_switch = none ∧
    (source_audio FifoMixer.default 0 [0xAF, 1] 0).2.1 ≠ [] :=
  ⟨rfl, rfl,
   (C1_amended_audio_admission.1 FifoMixer.default 0 [0xAF, 1] 0 rfl).mpr
     (Or.inl rfl)⟩

/-! ## Claim C3: the video scenario -/

/-- The C3 scenario: source 0 sends a video SequenceHeader (`17 00`) and a
seekable Nalu (`17 01 <i24 offset> D0`) at ts 0; source 1 sends a
non-seekable Nalu (`27 01 ...`) at ts 10, then a seekable Nalu at ts 20. -/
def c3Calls : List MediaCall :=
  [.video 0 [0x17, 0] 0,
   .video 0 [0x17, 1, 0, 0, 0, 0xD0] 0,
   .video 1 [0x27, 1, 0, 0, 0, 0xD1] 10,
   .video 1 [0x17, 1, 0, 0, 0, 0xD2] 20]

/-- Claim C3 counterexample: in the claimed scenario the final output
video timestamp is 10, not 20: the dropped non-seekable Nalu still
recorded ts 10 as source 1's last video timestamp, so the admitted
seekable Nalu contributes dt = 20 - 10 = 10 on top of the floor value 0. -/
theorem C3_counterexample_output_ts_not_20 :
    (runCalls FifoMixer.default c3Calls).video_timestamp = 10 ∧
    ((10 : Int) = 20 → False) :=
  ⟨rfl, by norm_num⟩

/-- Claim C3 as amended: source 0's SequenceHeader and seekable Nalu are
admitted (output video ts 0), source 1's non-seekable Nalu at ts 10 is
dropped but still updates source 1's per-source video timestamp, and
source 1's seekable Nalu at ts 20 is admitted: the current video source
becomes 1 and the output video timestamp becomes 0 + (20 - 10) = 10. -/
theorem C3_amended_video_scenario :
    callOutputs FifoMixer.default c3Calls =
      [write_video_tag_header 2 0 ++ [0x17, 0] ++ u32be 13,
       write_video_tag_header 6 0 ++ [0x17, 1, 0, 0, 0, 0xD0] ++ u32be 17,
       [],
       write_video_tag_header 6 10 ++ [0x17, 1, 0, 0, 0, 0xD2] ++ u32be 17] ∧
    (runCalls FifoMixer.default c3Calls).last_video_switch = some ⟨1, 0⟩ ∧
    (runCalls FifoMixer.default c3Calls).video_timestamp = 10 :=
  ⟨rfl, rfl, rfl⟩

/-! ## Claim C2: monotonicity of the output timestamps -/

/-- The inbound timestamp of a call is at least the per-source timestamp
the mixer has stored for that source and track. -/
def tsOkCall (m : FifoMixer) : MediaCall → Bool
  | .audio s _ t => decide ((m.source_timestamps s).audio_ts ≤ t)
  | .video s _ t => decide ((m.source_timestamps s).video_ts ≤ t)

/-- Every call's timestamp is at least the stored per-source timestamp at
the moment the call is processed.  Starting from `FifoMixer.default`
(stored timestamps 0) this says: per source and track, inbound timestamps
are nonnegative and nondecreasing. -/
def admissibleFrom (m : FifoMixer) : List MediaCall → Bool
  | [] => true
  | c :: cs => tsOkCall m c && admissibleFrom (stepCall m c).1 cs

theorem stepCall_mono (m : FifoMixer) (c : MediaCall)
    (h : tsOkCall m c = true) :
    m.audio_timestamp ≤ (stepCall m c).1.audio_timestamp ∧
    m.video_timestamp ≤ (stepCall m c).1.video_timestamp := by
  cases c with
  | audio s d t =>
    simp only [tsOkCall, decide_eq_true_eq] at h
    simp only [stepCall, source_audio]
    split
    · exact ⟨le_refl _, le_refl _⟩
    · split
      · exact ⟨le_refl _, le_refl _⟩
      · constructor
        · simp only
          omega
        · exact le_refl _
  | video s d t =>
    simp only [tsOkCall, decide_eq_true_eq] at h
    simp only [stepCall, source_video]
    split
    · exact ⟨le_refl _, le_refl _⟩
    · split
      · exact ⟨le_refl _, le_refl _⟩
      · constructor
        · exact le_refl _
        · simp only
          omega

theorem runCalls_mono (cs : List MediaCall) :
    ∀ m : FifoMixer, admissibleFrom m cs = true →
    m.audio_timestamp ≤ (runCalls m cs).audio_timestamp ∧
    m.video_timestamp ≤ (runCalls m cs).video_timestamp := by
  induction cs with
  | nil => exact fun m _ => ⟨le_refl _, le_refl _⟩
  | cons c cs ih =>
    intro m h
    simp only [admissibleFrom, Bool.and_eq_true] at h
    have h1 := stepCall_mono m c h.1
    have h2 := ih (stepCall m c).1 h.2
    simp only [runCalls]
    exact ⟨le_trans h1.1 h2.1, le_trans h1.2 h2.2⟩

theorem runCalls_append (a : List MediaCall) :
    ∀ (m : FifoMixer) (b : List MediaCall),
    runCalls m (a ++ b) = runCalls (runCalls m a) b := by
  induction a with
  | nil => intro m b; rfl
  | cons c a ih =>
    intro m b
    simp only [List.cons_append, runCalls]
    exact ih _ b

theorem admissibleFrom_append (a : List MediaCall) :
    ∀ (m : FifoMixer) (b : List MediaCall),
    admissibleFrom m (a ++ b) = true → admissibleFrom (runCalls m a) b = true := by
  induction a with
  | nil => intro m b h; exact h
  | cons c a ih =>
    intro m b h
    simp only [List.cons_append, admissibleFrom, Bool.and_eq_true] at h
    exact ih (stepCall m c).1 b h.2

/-- Claim C2 counterexample: with no precondition on inbound timestamps the
output audio timestamp can decrease.  A single Raw audio packet from
source 0 with timestamp -5 is admitted (fresh floor), `dt = -5 - 0 = -5`
is added, and the mixer's output audio timestamp drops from 0 to -5. -/
theorem C2_counterexample_output_ts_decreases :
    (stepCall FifoMixer.default (.audio 0 [0xAF, 1] (-5))).1.audio_timestamp <
      FifoMixer.default.audio_timestamp := by
  decide

/-- Claim C2 as amended: provided every call's inbound timestamp is at
least the mixer's stored per-source timestamp for that track (from the
default state: per-source nonnegative and nondecreasing inbound
timestamps), the output audio and video timestamps never decrease over the
life of the mixer. -/
theorem C2_amended_output_ts_nondecreasing (pre post : List MediaCall)
    (h : admissibleFrom FifoMixer.default (pre ++ post) = true) :
    (runCalls FifoMixer.default pre).audio_timestamp ≤
      (runCalls FifoMixer.default (pre ++ post)).audio_timestamp ∧
    (runCalls FifoMixer.default pre).video_timestamp ≤
      (runCalls FifoMixer.default (pre ++ post)).video_timestamp := by
  rw [runCalls_append]
  exact runCalls_mono post _ (admissibleFrom_append pre _ post h)

/-- Claim C2 witness at a concrete trace. -/
theorem C2_amended_output_ts_nondecreasing_witness :
    admissibleFrom FifoMixer.default
      ([.audio 0 [0xAF, 1] 3] ++ [.video 0 [0x17, 0] 5]) = true ∧
    (runCalls FifoMixer.default [.audio 0 [0xAF, 1] 3]).audio_timestamp ≤
      (runCalls FifoMixer.default
        ([.audio 0 [0xAF, 1] 3] ++ [.video 0 [0x17, 0] 5])).audio_timestamp :=
  ⟨by decide,
   (C2_amended_output_ts_nondecreasing [.audio 0 [0xAF, 1] 3]
     [.video 0 [0x17, 0] 5] (by decide)).1⟩

/-! ## Claim C4: the video floor between seekable NAL units -/

/-- One `source_video` call. -/
structure VideoCall where
  source : Nat
  data : List Nat
  timestamp : Int

/-- Process one `source_video` call: post-state and bytes written. -/
def stepVideo (m : FifoMixer) (c : VideoCall) : FifoMixer × List Nat :=
  let r := source_video m c.source c.data c.timestamp
  (r.1, r.2.1)

/-- The payload parses as a seekable NAL unit. -/
def isSeekableNalu (data : List Nat) : Bool :=
  match read_video_headers data with
  | .ok (.Nalu _ true) => true
  | _ => false

/-- The `(source, seekable)` pairs of the admitted video packets of a call
sequence, in order (dropped packets leave no entry). -/
def admittedVideo (m : FifoMixer) : List VideoCall → List (Nat × Bool)
  | [] => []
  | c :: cs =>
    if (stepVideo m c).2 = [] then admittedVideo (stepVideo m c).1 cs
    else (c.source, isSeekableNalu c.data) :: admittedVideo (stepVideo m c).1 cs

theorem stepVideo_drop_switch (m : FifoMixer) (c : VideoCall)
    (h : (stepVideo m c).2 = []) :
    (stepVideo m c).1.last_video_switch = m.last_video_switch := by
  revert h
  simp only [stepVideo, source_video]
  split
  · intro _; rfl
  · split
    · intro _; rfl
    · intro h
      exact absurd h (by
        simp [write_video_tag_header, write_media_tag_header])

theorem stepVideo_admit_nonseekable (m : FifoMixer) (sw : LastSwitch)
    (c : VideoCall) (hsw : m.last_video_switch = some sw)
    (hns : isSeekableNalu c.data = false)
    (hadm : (stepVideo m c).2 ≠ []) :
    c.source = sw.current ∧
    (stepVideo m c).1.last_video_switch = some sw := by
  cases hr : read_video_headers c.data with
  | error e =>
    exfalso; apply hadm
    simp [stepVideo, source_video, hr]
  | ok header =>
    cases header with
    | SequenceHeader =>
      exfalso; apply hadm
      simp [stepVideo, source_video, hr, videoDecision, hsw]
    | SequenceEnd =>
      exfalso; apply hadm
      simp [stepVideo, source_video, hr, videoDecision]
    | Nalu co seek =>
      cases seek with
      | true =>
        exfalso
        simp [isSeekableNalu, hr] at hns
      | false =>
        cases hsame : same_source m.last_video_switch c.source with
        | false =>
          rw [hsw] at hsame
          exfalso; apply hadm
          simp [stepVideo, source_video, hr, videoDecision, hsame, hsw]
        | true =>
          rw [hsw] at hsame
          have hcur : sw.current = c.source := by
            simpa [same_source] using hsame
          refine ⟨hcur.symm, ?_⟩
          simp [stepVideo, source_video, hr, videoDecision, hsame, hsw]

theorem stepVideo_seekable (m : FifoMixer) (c : VideoCall)
    (hseek : isSeekableNalu c.data = true) :
    (stepVideo m c).2 ≠ [] ∧
    (stepVideo m c).1.last_video_switch =
      some ⟨c.source, m.video_timestamp⟩ := by
  cases hr : read_video_headers c.data with
  | error e => simp [isSeekableNalu, hr] at hseek
  | ok header =>
    cases header with
    | SequenceHeader => simp [isSeekableNalu, hr] at hseek
    | SequenceEnd => simp [isSeekableNalu, hr] at hseek
    | Nalu co seek =>
      cases seek with
      | false => simp [isSeekableNalu, hr] at hseek
      | true =>
        simp only [stepVideo, source_video, hr, videoDecision, if_pos rfl]
        exact ⟨by simp [write_video_tag_header, write_media_tag_header], rfl⟩

theorem admittedVideo_floor (cs : List VideoCall) :
    ∀ (m : FifoMixer) (sw : LastSwitch), m.last_video_switch = some sw →
    ((admittedVideo m cs).takeWhile (fun e => !e.2)).all
      (fun e => e.1 == sw.current) = true := by
  induction cs with
  | nil => intro m sw _; rfl
  | cons c cs ih =>
    intro m sw hsw
    by_cases hadm : (stepVideo m c).2 = []
    · rw [admittedVideo, if_pos hadm]
      exact ih _ sw ((stepVideo_drop_switch m c hadm).trans hsw)
    · rw [admittedVideo, if_neg hadm]
      cases hseek : isSeekableNalu c.data with
      | true => simp [List.takeWhile, hseek]
      | false =>
        obtain ⟨hsrc, hsw'⟩ := stepVideo_admit_nonseekable m sw c hsw hseek hadm
        simp only [List.takeWhile, hseek, Bool.not_false, List.all_cons,
          Bool.and_eq_true, beq_iff_eq]
        exact ⟨hsrc, ih _ sw hsw'⟩

/-- Claim C4: after the mixer admits a seekable NAL unit from a source,
and until the next admitted seekable NAL unit, every admitted video packet
comes from that source, i.e. non-seekable Nalus and SequenceHeaders from
other sources are dropped while a current video source is set. -/
theorem C4_video_floor_between_seekables (m : FifoMixer) (c : VideoCall)
    (cs : List VideoCall) (hseek : isSeekableNalu c.data = true) :
    (stepVideo m c).2 ≠ [] ∧
    ((admittedVideo (stepVideo m c).1 cs).takeWhile (fun e => !e.2)).all
      (fun e => e.1 == c.source) = true := by
  have h := stepVideo_seekable m c hseek
  exact ⟨h.1, admittedVideo_floor cs _ ⟨c.source, m.video_timestamp⟩ h.2⟩

/-- Claim C4 witness at a concrete trace: after source 0's admitted
seekable Nalu, an admitted non-seekable Nalu from source 0, a dropped
non-seekable Nalu from source 1 and a dropped SequenceHeader from source 1
all keep every admitted entry before the next seekable one at source 0. -/
theorem C4_video_floor_between_seekables_witness :
    isSeekableNalu [0x17, 1, 0, 0, 0] = true ∧
    ((admittedVideo
        (stepVideo FifoMixer.default ⟨0, [0x17, 1, 0, 0, 0], 0⟩).1
        [⟨0, [0x27, 1, 0, 0, 0], 1⟩, ⟨1, [0x27, 1, 0, 0, 0], 2⟩,
         ⟨1, [0x17, 0], 3⟩]).takeWhile (fun e => !e.2)).all
      (fun e => e.1 == 0) = true :=
  ⟨rfl,
   (C4_video_floor_between_seekables FifoMixer.default ⟨0, [0x17, 1, 0, 0, 0], 0⟩
     [⟨0, [0x27, 1, 0, 0, 0], 1⟩, ⟨1, [0x27, 1, 0, 0, 0], 2⟩,
      ⟨1, [0x17, 0], 3⟩] rfl).2⟩

/-! ## Claim C10: the audio floor change gate -/

/-- Claim C10: the audio floor holder changes to a different source only
when the output audio timestamp has advanced by strictly more than
MIN_AUDIO_INTERVAL (2000 ms) since the previous holder took the floor, and
a Raw packet from a non-current source arriving no later than that is
dropped without touching the output timestamp or the floor. -/
theorem C10_audio_floor_gate :
    (∀ (m : FifoMixer) (sw : LastSwitch) (s : Nat) (d : List Nat) (t : Int)
       (sw' : LastSwitch),
       m.last_audio_switch = some sw →
       (source_audio m s d t).1.last_audio_switch = some sw' →
       sw'.current ≠ sw.current →
       MIN_AUDIO_INTERVAL < m.audio_timestamp - sw.started) ∧
    (∀ (m : FifoMixer) (sw : LastSwitch) (s : Nat) (d : List Nat) (t : Int),
       m.last_audio_switch = some sw →
       s ≠ sw.current →
       read_audio_headers d = .ok .Raw →
       m.audio_timestamp - sw.started ≤ MIN_AUDIO_INTERVAL →
       (source_audio m s d t).2.1 = [] ∧
       (source_audio m s d t).1.last_audio_switch = some sw ∧
       (source_audio m s d t).1.audio_timestamp = m.audio_timestamp) := by
  constructor
  · intro m sw s d t sw' hsw hsw' hne
    cases hr : read_audio_headers d with
    | error e =>
      exfalso
      apply hne
      have hfix : (source_audio m s d t).1.last_audio_switch = some sw := by
        simp [source_audio, hr, hsw]
      rw [hfix] at hsw'
      exact congrArg LastSwitch.current (Option.some.inj hsw').symm
    | ok header =>
      cases header with
      | SequenceHeader =>
        exfalso
        apply hne
        have hfix : (source_audio m s d t).1.last_audio_switch = some sw := by
          simp [source_audio, hr, audioDecision, hsw]
        rw [hfix] at hsw'
        exact congrArg LastSwitch.current (Option.some.inj hsw').symm
      | Raw =>
        cases hready : ready_for_change m.last_audio_switch s m.audio_timestamp with
        | true =>
          rw [hsw] at hready
          simp only [ready_for_change, decide_eq_true_eq] at hready
          exact hready.2
        | false =>
          exfalso
          apply hne
          rw [hsw] at hready
          have hfix : (source_audio m s d t).1.last_audio_switch = some sw := by
            cases hsame : same_source (some sw) s with
            | true => simp [source_audio, hr, audioDecision, hsw, hready, hsame]
            | false => simp [source_audio, hr, audioDecision, hsw, hready, hsame]
          rw [hfix] at hsw'
          exact congrArg LastSwitch.current (Option.some.inj hsw').symm
  · intro m sw s d t hsw hne hr hlate
    have hready : ready_for_change (some sw) s m.audio_timestamp = false := by
      simp only [ready_for_change, decide_eq_false_iff_not, not_and, not_lt]
      intro _
      exact hlate
    have hsame : same_source (some sw) s = false := by
      simp only [same_source, decide_eq_false_iff_not]
      exact fun hcur => hne hcur.symm
    refine ⟨?_, ?_, ?_⟩ <;>
      simp [source_audio, hr, audioDecision, hsw, hready, hsame]

/-- Fixed mixer states for the C10 witness: a floor held by source 0 since
output time 0, observed at output time 3000 (hot) and 0 (cold). -/
def mixerHot : FifoMixer :=
  { FifoMixer.default with audio_timestamp := 3000,
                           last_audio_switch := some ⟨0, 0⟩ }

def mixerCold : FifoMixer :=
  { FifoMixer.default with last_audio_switch := some ⟨0, 0⟩ }

/-- Claim C10 witness at concrete states. -/
theorem C10_audio_floor_gate_witness :
    mixerHot.last_audio_switch = some ⟨0, 0⟩ ∧
    (source_audio mixerHot 1 [0xAF, 1] 0).1.last_audio_switch =
      some ⟨1, 3000⟩ ∧
    MIN_AUDIO_INTERVAL < mixerHot.audio_timestamp - (LastSwitch.mk 0 0).started ∧
    (source_audio mixerCold 1 [0xAF, 1] 0).2.1 = [] :=
  ⟨rfl, rfl,
   C10_audio_floor_gate.1 mixerHot ⟨0, 0⟩ 1 [0xAF, 1] 0 ⟨1, 3000⟩ rfl rfl
     (by decide),
   (C10_audio_floor_gate.2 mixerCold ⟨0, 0⟩ 1 [0xAF, 1] 0 rfl (by decide) rfl
     (by decide)).1⟩

/-! ## Claim C9: RTMP timestamp conversion -/

/-- Claim C9: for inbound audio or video data, the connection converts the
unsigned 32-bit RTMP timestamp with `i32::try_from` and fails (rather than
wrapping or forwarding) whenever the value exceeds `i32::MAX`; media with a
timestamp up to `i32::MAX` is forwarded to the mixer channel with exactly
that timestamp and the connection's source id. -/
theorem C9_timestamp_conversion (source : Nat) (u : Nat) (data : List Nat) :
    (I32_MAX < u →
      handle_client_message source u (.audioData data) = .error () ∧
      handle_client_message source u (.videoData data) = .error ()) ∧
    (u ≤ I32_MAX →
      handle_client_message source u (.audioData data) =
        .ok (some (.Audio data (u : Int) source)) ∧
      handle_client_message source u (.videoData data) =
        .ok (some (.Video data (u : Int) source))) := by
  constructor
  · intro h
    have hn : ¬ u ≤ I32_MAX := by omega
    constructor <;> simp [handle_client_message, i32_try_from_u32, hn]
  · intro h
    constructor <;> simp [handle_client_message, i32_try_from_u32, h]

/-- Claim C9 witness at concrete values: 2^31 overflows, 7 is forwarded. -/
theorem C9_timestamp_conversion_witness :
    I32_MAX < 2147483648 ∧
    handle_client_message 4 2147483648 (.audioData [1]) = .error () ∧
    handle_client_message 4 7 (.videoData [2]) =
      .ok (some (.Video [2] (7 : Int) 4)) :=
  ⟨by norm_num [I32_MAX],
   ((C9_timestamp_conversion 4 2147483648 [1]).1 (by norm_num [I32_MAX])).1,
   ((C9_timestamp_conversion 4 7 [2]).2 (by norm_num [I32_MAX])).2⟩

end ForeverVideo
